import Mathlib

/-!
Shallow embedding of the timesheet reconciliation engine
(`timesheet_service.py`, `status_service.py`, `data_processor.py`,
`database.py`) and proofs of its spec claims.

Modelling choices, fixed once for the whole file:
 * A pandas cell is a `Val`: the missing value `NA`, a string, or an
   integer.  Numeric cells are modelled over `Int`; floating point
   renderings are outside the scope of the claims proved here.
 * `Date` cells are modelled post-parse as `Option String` holding the
   ISO `YYYY-MM-DD` rendering (`none` is `NaT`); `pd.to_datetime` on an
   already-parsed column is the identity, and lexicographic order on
   ISO strings agrees with chronological order.
 * A dataframe of timesheet rows is a `List Row`.  The derived columns
   `simple_key` and `signature` that the services assign onto frames are
   modelled as optional slots of `Row` (absent = column not present).
 * The relational store is a `List Row`; SQL statements are embedded by
   their effect on that list.  SQL string comparison is modelled as exact
   equality (collation subtleties play no role in the claims).
 * Store I/O failures are injected through an `Oracle`: each persistence
   primitive either succeeds or raises the oracle's message, which the
   services catch exactly as the Python `try/except` blocks do.
-/

/-- The whitespace set of Python's `str.strip()`. -/
def is_space (c : Char) : Bool :=
  c == ' ' || c == '\t' || c == '\n' || c == '\r' || c == '\x0b' || c == '\x0c'

/-- Executable model of `str.strip()` (ASCII whitespace). -/
def py_strip (s : String) : String :=
  String.mk (((s.data.dropWhile is_space).reverse.dropWhile is_space).reverse)

/-- Executable model of `str.lower()` (ASCII case folding). -/
def py_lower (s : String) : String := String.mk (s.data.map Char.toLower)

/-- Code-point lexicographic order on character lists, the order Python
and pandas use to compare and sort strings. -/
def chars_lt : List Char → List Char → Bool
  | [], [] => false
  | [], _ :: _ => true
  | _ :: _, [] => false
  | a :: as, b :: bs => if a = b then chars_lt as bs else decide (a < b)

def py_str_lt (a b : String) : Bool := chars_lt a.data b.data

def py_str_le (a b : String) : Bool := a == b || py_str_lt a b

def digit_val (c : Char) : Option Nat :=
  if decide ('0' ≤ c) && decide (c ≤ '9') then some (c.toNat - '0'.toNat) else none

def digits_to_nat (acc : Nat) : List Char → Option Nat
  | [] => some acc
  | c :: cs =>
    match digit_val c with
    | some d => digits_to_nat (acc * 10 + d) cs
    | none => none

/-- Executable model of parsing an integer literal (optional sign and
decimal digits), the integer fragment of `pd.to_numeric`. -/
def py_to_int (s : String) : Option Int :=
  match s.data with
  | [] => none
  | '-' :: cs => if cs = [] then none else (digits_to_nat 0 cs).map (fun n => -(n : Int))
  | '+' :: cs => if cs = [] then none else (digits_to_nat 0 cs).map (fun n => (n : Int))
  | cs => (digits_to_nat 0 cs).map (fun n => (n : Int))

inductive Val where
  | na : Val
  | str : String → Val
  | int : Int → Val
deriving DecidableEq, Repr

/-- `normalize_text_series` of `data_processor.py`: `""` for a missing
value, `str(value).strip()` otherwise. -/
def normalize_text : Val → String
  | .na => ""
  | .str s => py_strip s
  | .int n => toString n

/-- `pd.to_numeric(..., errors="coerce")` on a cell (integer domain). -/
def to_numeric : Val → Option Int
  | .na => none
  | .str s => py_to_int (py_strip s)
  | .int n => some n

/-- Raw string rendering of a cell, as the stores and sorters see it
(`NA` renders as the empty string, mirroring `fillna("")`). -/
def val_str : Val → String
  | .na => ""
  | .str s => s
  | .int n => toString n

/-- One row of the unioned timesheet table, in the column order of
`config.TIMESHEET_COLUMNS`, plus the two derived key columns the
services assign onto frames. -/
structure Row where
  date : Option String := none
  employee : Val := .na
  role : Val := .na
  office : Val := .na
  project_name : Val := .na
  project_id : Val := .na
  hours : Val := .na
  status : Val := .na
  interviews : Val := .na
  database : Val := .na
  database_converted : Val := .na
  simple_key : Option String := none
  signature : Option String := none
deriving DecidableEq, Repr

/-- `Date.dt.strftime("%Y-%m-%d").fillna("")`. -/
def dateStr (r : Row) : String := r.date.getD ""

/-- `data_processor.build_simple_key`, per row. -/
def build_simple_key (r : Row) : String :=
  dateStr r ++ "|" ++ normalize_text r.employee ++ "|" ++ normalize_text r.project_id

/-- `data_processor.build_signature`, per row: the date rendering joined
with every column of `config.SIGNATURE_EXTRA_COLUMNS`, normalized. -/
def build_signature (r : Row) : String :=
  String.intercalate "|"
    [dateStr r, normalize_text r.employee, normalize_text r.role,
     normalize_text r.office, normalize_text r.project_name,
     normalize_text r.project_id, normalize_text r.hours,
     normalize_text r.status, normalize_text r.interviews,
     normalize_text r.database, normalize_text r.database_converted]

/-- The `hours > 0` test of `enforce_hours_status_rule` (`NaN > 0` is
false in pandas, hence `false` on `none`). -/
def hours_pos (r : Row) : Bool :=
  match to_numeric r.hours with
  | some h => decide (0 < h)
  | none => false

/-- The per-row column rewrites of `enforce_hours_status_rule`: the
`Status` column is overwritten with its stripped rendering, and
`Working_Hours` is forced to `NA` when the stripped status is non-empty
but the hours are not positive. -/
def enforce_row (r : Row) : Row :=
  let st := normalize_text r.status
  { r with
    status := .str st
    hours := if st ≠ "" ∧ hours_pos r = false then .na else r.hours }

/-- `data_processor.enforce_hours_status_rule`: the keep mask is
computed from the original hours and the stripped status, and the
returned rows carry the rewritten columns. -/
def enforce_hours_status_rule (l : List Row) : List Row :=
  (l.filter (fun r => hours_pos r || !(normalize_text r.status == ""))).map enforce_row

/-- Numeric-column formatting of `format_for_mysql`: two-decimal
rendering with trailing zeros and point stripped (the identity rendering
on integers), `NA` as the `\N` sentinel. -/
def format_numeric (v : Val) : Val :=
  .str (match to_numeric v with
        | some n => toString n
        | none => "\\N")

/-- Text-column formatting of `format_for_mysql`: strip, and replace a
missing or empty value with `config.UNKNOWN_TEXT`. -/
def format_text (v : Val) : Val :=
  let t := normalize_text v
  .str (if t == "" then "unknown" else t)

/-- `data_processor.format_for_mysql`, per row.  The `Date` column is
already its `YYYY-MM-DD` rendering in this model, so the date branch is
the identity. -/
def format_row (r : Row) : Row :=
  { r with
    employee := format_text r.employee
    role := format_text r.role
    office := format_text r.office
    project_name := format_text r.project_name
    project_id := format_text r.project_id
    status := format_text r.status
    hours := format_numeric r.hours
    interviews := format_numeric r.interviews
    database := format_numeric r.database
    database_converted := format_numeric r.database_converted }

/-- `data_processor.format_for_mysql` on a frame. -/
def format_for_mysql (l : List Row) : List Row := l.map format_row

/-- `data_processor.prepare_timesheet_for_insert`: column completion and
reordering are the identity in the typed model, then the business rule,
then store formatting. -/
def prepare_timesheet_for_insert (l : List Row) : List Row :=
  format_for_mysql (enforce_hours_status_rule l)

/-- `config.NON_MEANINGFUL_STATUS`. -/
def non_meaningful_status : List String :=
  ["", "0", "n", "no", "none", "na", "n/a", "-", "--"]

/-- The `str.replace(r"[\r\n\t]+", "")` step of `_clean_status_values`. -/
def remove_ctl (s : String) : String :=
  String.mk (s.data.filter (fun c => !(c == '\r' || c == '\n' || c == '\t')))

/-- `status_service._clean_status_values`, per value: strip, remove
control characters, and blank out a value whose case-folded form is in
the non-meaningful set. -/
def clean_status_value (v : Val) : String :=
  let original := remove_ctl (normalize_text v)
  if non_meaningful_status.contains (py_lower original) then "" else original

/-- The `dropna(subset=["Date", "Employee_Name", "Project_ID"])` mask:
a row is keyable when all three identity cells are present. -/
def keyable (r : Row) : Bool :=
  r.date.isSome && !(r.employee == Val.na) && !(r.project_id == Val.na)

/-- Lines 51-52 / 57-58 of `timesheet_service.py`: assign the
`simple_key` and `signature` columns onto a frame. -/
def set_keys (r : Row) : Row :=
  { r with simple_key := some (build_simple_key r), signature := some (build_signature r) }

/-- Line 61 / 73 of `status_service.py`: assign only `simple_key`. -/
def set_simple_key (r : Row) : Row :=
  { r with simple_key := some (build_simple_key r) }

/-- Lines 106-108 of `timesheet_service.py`: drop the derived key
columns from the persistence payload. -/
def clear_keys (r : Row) : Row :=
  { r with simple_key := none, signature := none }

/-- The cleaned working frame of `process_timesheet_changes`
(lines 42-52): parse dates, drop unkeyable rows, assign key columns. -/
def working_keyed (new_records : List Row) : List Row :=
  (new_records.filter keyable).map set_keys

/-- `na_position="last"` order on parsed dates. -/
def date_le_b : Option String → Option String → Bool
  | _, none => true
  | none, some _ => false
  | some x, some y => py_str_le x y

/-- The `sort_values(["simple_key", "Date"], ascending=True,
na_position="last")` sort key of `process_timesheet_changes`. -/
def key_date_le_b (a b : Row) : Bool :=
  if build_simple_key a = build_simple_key b then date_le_b a.date b.date
  else py_str_lt (build_simple_key a) (build_simple_key b)

def key_date_le (a b : Row) : Prop := key_date_le_b a b = true

instance : DecidableRel key_date_le := fun a b =>
  inferInstanceAs (Decidable (key_date_le_b a b = true))

/-- Lines 60-65 of `timesheet_service.py`: the canonical existing
signature per simple key — sort by `(simple_key, Date)` ascending with
nulls last (a stable multi-column sort), deduplicate keeping last, and
index by key.  The lookup therefore returns the signature of the last
row with that key in the sorted order, and `none` when the key is
absent (the `pd.NA` the lookup produces in pandas). -/
def existing_signature_by_key (existing : List Row) (k : String) : Option String :=
  (((List.insertionSort key_date_le existing).filter
      (fun r => build_simple_key r == k)).getLast?).map build_signature

/-- The update test of line 72-75: present-and-different signature. -/
def is_changed (sig? : Option String) (r : Row) : Bool :=
  match sig? with
  | none => false
  | some s => !(s == build_signature r)

/-- Line 71: the rows classified insert. -/
def to_insert_list (new_records existing : List Row) : List Row :=
  (working_keyed new_records).filter
    (fun r => (existing_signature_by_key existing (build_simple_key r)).isNone)

/-- Lines 72-75: the rows classified update. -/
def to_update_list (new_records existing : List Row) : List Row :=
  (working_keyed new_records).filter
    (fun r => is_changed (existing_signature_by_key existing (build_simple_key r)) r)

/-- `models.ProcessingStats`. -/
structure ProcessingStats where
  inserted : Nat := 0
  updated : Nat := 0
  skipped : Nat := 0
  errors : List String := []
deriving DecidableEq, Repr

/-- `models.StatusStats`. -/
structure StatusStats where
  updated : Nat := 0
  inserted : Nat := 0
  errors : List String := []
deriving DecidableEq, Repr

/-- `models.DeduplicationStats`. -/
structure DeduplicationStats where
  total_rows_before : Nat := 0
  total_rows_after : Nat := 0
  duplicates_removed : Nat := 0
  errors : List String := []
deriving DecidableEq, Repr

/-- Failure injection for the store primitives: each field is `none`
for a successful call and `some msg` for a call that raises `msg`. -/
structure Oracle where
  delete_err : Option String := none
  insert_err : Option String := none
  update_err : Option String := none
deriving DecidableEq, Repr

/-- The error string built at line 121 of `timesheet_service.py`. -/
def ts_err_msg (e : String) : String :=
  "Error inserting or updating timesheet data: " ++ e

/-- The error string built at line 117 of `status_service.py`. -/
def status_err_msg (e : String) : String :=
  "Error updating status information: " ++ e

/-- `drop_duplicates()` with the default `keep="first"`, written with a
seen-set accumulator. -/
def keep_first_aux [DecidableEq α] (seen : List α) : List α → List α
  | [] => []
  | x :: xs =>
    if x ∈ seen then keep_first_aux seen xs
    else x :: keep_first_aux (x :: seen) xs

def keep_first [DecidableEq α] (l : List α) : List α := keep_first_aux [] l

/-- `drop_duplicates(keep="last")` under a key function: a row survives
exactly when no later row has the same key, preserving order. -/
def keep_last_by [DecidableEq β] (key : α → β) : List α → List α
  | [] => []
  | x :: xs =>
    if ∃ y ∈ xs, key y = key x then keep_last_by key xs
    else x :: keep_last_by key xs

/-- The `(Date, Employee_Name, Project_ID)` key tuple a delete statement
binds (line 87 and 117-128 of the sources): calendar date plus the raw
employee and project values. -/
def delete_key (r : Row) : String × Val × Val := (dateStr r, r.employee, r.project_id)

/-- Line 87: the deduplicated key frame handed to the delete. -/
def delete_keys_of (to_update : List Row) : List (String × Val × Val) :=
  keep_first (to_update.map delete_key)

/-- `database.delete_timesheet_records`: delete every store row whose
`(DATE(Date), Employee_Name, Project_ID)` matches one of the keys. -/
def delete_timesheet_records (store : List Row) (keys : List (String × Val × Val)) : List Row :=
  store.filter (fun t =>
    !(keys.any (fun k => dateStr t == k.1 && t.employee == k.2.1 && t.project_id == k.2.2)))

/-- The persistence payload built at lines 104-110: concatenate the
insert and update frames, drop the derived key columns, and run
`prepare_timesheet_for_insert`. -/
def ts_payload (new_records existing : List Row) : List Row :=
  prepare_timesheet_for_insert
    ((to_insert_list new_records existing ++ to_update_list new_records existing).map clear_keys)

/-- `timesheet_service.process_timesheet_changes`, with the engine
replaced by the store list and the oracle.  Returns the stats, the
store after the call, and the `existing_records` frame after the call
(the function assigns the key columns onto the caller's frame in place;
`new_records` is copied at line 42 and never written back, so it is
unchanged by construction).  `bulk_insert_timesheets` returns without
touching the store when its payload is empty, so the insert oracle only
fires on a non-empty payload; likewise the delete only runs when there
are updates. -/
def process_timesheet_changes (o : Oracle) (new_records existing_records store : List Row) :
    ProcessingStats × List Row × List Row :=
  if new_records = [] then ({}, store, existing_records)
  else
    let working := working_keyed new_records
    if working = [] then
      ({ errors := ["No valid timesheet rows remained after cleaning."] }, store, existing_records)
    else
      let existing_out :=
        if existing_records = [] then existing_records else existing_records.map set_keys
      let to_insert := to_insert_list new_records existing_records
      let to_update := to_update_list new_records existing_records
      let skipped := working.length - to_insert.length - to_update.length
      if to_insert = [] ∧ to_update = [] then
        ({ skipped := skipped }, store, existing_out)
      else
        match (if to_update = [] then none else o.delete_err) with
        | some e =>
          ({ skipped := skipped, errors := [ts_err_msg e] }, store, existing_out)
        | none =>
          let store₁ :=
            if to_update = [] then store
            else delete_timesheet_records store (delete_keys_of to_update)
          let payload := ts_payload new_records existing_records
          match (if payload = [] then none else o.insert_err) with
          | some e =>
            ({ inserted := to_insert.length, updated := to_update.length,
               skipped := skipped, errors := [ts_err_msg e] }, store₁, existing_out)
          | none =>
            ({ inserted := to_insert.length, updated := to_update.length,
               skipped := skipped }, store₁ ++ payload, existing_out)

/-- The `sort_values(["Date", "Employee_Name", "Project_ID"])` key of
`process_status_updates` (line 56), a stable ascending lexicographic
sort on the rendered values. -/
def status_le_b (a b : Row) : Bool :=
  if dateStr a = dateStr b then
    if val_str a.employee = val_str b.employee then
      py_str_le (val_str a.project_id) (val_str b.project_id)
    else py_str_lt (val_str a.employee) (val_str b.employee)
  else py_str_lt (dateStr a) (dateStr b)

def status_le (a b : Row) : Prop := status_le_b a b = true

instance : DecidableRel status_le := fun a b =>
  inferInstanceAs (Decidable (status_le_b a b = true))

/-- The `config.STATUS_DEDUP_COLUMNS` tuple. -/
def status_dedup_key (r : Row) : Option String × Val × Val :=
  (r.date, r.employee, r.project_id)

/-- Lines 41-57 of `status_service.py`: clean the working status frame —
parse dates, drop unkeyable rows, overwrite `Status` with its cleaned
value, drop rows whose cleaned status is empty, sort, and deduplicate on
`(Date, Employee_Name, Project_ID)` keeping last. -/
def status_working (status_df : List Row) : List Row :=
  keep_last_by status_dedup_key
    (List.insertionSort status_le
      (((status_df.filter keyable).map
          (fun r => { r with status := .str (clean_status_value r.status) })).filter
        (fun r => !(val_str r.status == ""))))

/-- Lines 62-67: the existing status per simple key — deduplicate the
existing frame on `simple_key` keeping last (no sort), index by key,
take `Status` with `fillna("")`. -/
def existing_status_by_key (existing : List Row) (k : String) : Option String :=
  ((existing.filter (fun r => build_simple_key r == k)).getLast?).map
    (fun r => val_str r.status)

/-- Lines 69-71: the cleaned existing status seen by a working row
(absent key maps to `""` before cleaning). -/
def existing_status_clean (existing : List Row) (r : Row) : String :=
  clean_status_value (.str ((existing_status_by_key existing (build_simple_key r)).getD ""))

/-- Lines 77-81: the rows classified as status updates — meaningful
existing status that differs from the new one after strip + casefold. -/
def status_updates_list (status_df existing : List Row) : List Row :=
  (status_working status_df).filter (fun r =>
    !(existing_status_clean existing r == "") &&
    !(py_lower (py_strip (existing_status_clean existing r)) ==
      py_lower (py_strip (val_str r.status))))

/-- Line 83: the rows classified as status inserts — no meaningful
existing status under the key. -/
def status_inserts_list (status_df existing : List Row) : List Row :=
  (status_working status_df).filter (fun r => existing_status_clean existing r == "")

/-- One UPDATE of `database.update_status_records`: set `Status` on
every store row matching `(DATE(Date), Employee_Name, Project_ID)`. -/
def apply_status_update (u t : Row) : Row :=
  if dateStr t == dateStr u && t.employee == u.employee && t.project_id == u.project_id
  then { t with status := u.status } else t

/-- `database.update_status_records`: the parameter rows are executed in
order against the store. -/
def update_status_records (store updates : List Row) : List Row :=
  updates.foldl (fun st u => st.map (apply_status_update u)) store

/-- Lines 95-107 of `status_service.py`: a bare status-only insert row —
identity fields and status from the working row, all other columns null. -/
def status_insert_row (r : Row) : Row :=
  { date := r.date, employee := r.employee, project_id := r.project_id, status := r.status }

/-- Lines 109-110: the insert payload after the business rule and store
formatting. -/
def status_payload (status_df existing : List Row) : List Row :=
  format_for_mysql (enforce_hours_status_rule
    ((status_inserts_list status_df existing).map status_insert_row))

/-- `status_service.process_status_updates`, engine replaced by store
plus oracle.  Returns the stats, the store after the call, and the
`existing_records` frame after the call (the function assigns the
`simple_key` column onto the caller's frame in place; `status_df` is
copied at line 41 and unchanged).  The three empty early returns of the
source (empty input, nothing keyable, nothing meaningful) all return
default stats with nothing touched and are collapsed into the
`status_working` emptiness test; the update statement only executes on a
non-empty update set, and the bulk insert only touches the store on a
non-empty payload. -/
def process_status_updates (o : Oracle) (status_df existing_records store : List Row) :
    StatusStats × List Row × List Row :=
  if status_df = [] then ({}, store, existing_records)
  else
    let working := status_working status_df
    if working = [] then ({}, store, existing_records)
    else
      let existing_out :=
        if existing_records = [] then existing_records
        else existing_records.map set_simple_key
      let updates := status_updates_list status_df existing_records
      let inserts := status_inserts_list status_df existing_records
      match (if updates = [] then none else o.update_err) with
      | some e => ({ errors := [status_err_msg e] }, store, existing_out)
      | none =>
        let store₁ :=
          if updates = [] then store else update_status_records store updates
        let payload := status_payload status_df existing_records
        match (if inserts = [] then none else if payload = [] then none else o.insert_err) with
        | some e =>
          ({ updated := updates.length, errors := [status_err_msg e] }, store₁, existing_out)
        | none =>
          ({ updated := updates.length, inserted := inserts.length },
           store₁ ++ payload, existing_out)

/-- The `PARTITION BY DATE(Date), Employee_Name, Project_ID` key of
`database.deduplicate_table_sql` (raw SQL values). -/
def sql_group_key (r : Row) : String × Val × Val := (dateStr r, r.employee, r.project_id)

/-- `COALESCE(Working_Hours, 0)`. -/
def coalesce_hours (r : Row) : Int := (to_numeric r.hours).getD 0

/-- `COALESCE(Status, '')`. -/
def coalesce_status (r : Row) : String := val_str r.status

/-- The window ordering `ORDER BY Date DESC, COALESCE(Working_Hours, 0)
DESC, COALESCE(Status, '') DESC` of the `ROW_NUMBER` in
`deduplicate_table_sql`. -/
def dedup_order_b (a b : Row) : Bool :=
  if dateStr a = dateStr b then
    if coalesce_hours a = coalesce_hours b then
      py_str_le (coalesce_status b) (coalesce_status a)
    else decide (coalesce_hours b < coalesce_hours a)
  else py_str_lt (dateStr b) (dateStr a)

def dedup_order (a b : Row) : Prop := dedup_order_b a b = true

instance : DecidableRel dedup_order := fun a b =>
  inferInstanceAs (Decidable (dedup_order_b a b = true))

/-- The `temp_dedup_keys` temporary table: for every identity group, the
group's rows sorted by the window ordering, each contributing its key
and its row number within the group. -/
def temp_dedup_keys (table : List Row) : List ((String × Val × Val) × Nat) :=
  (keep_first (table.map sql_group_key)).flatMap (fun g =>
    ((List.insertionSort dedup_order
        (table.filter (fun r => sql_group_key r == g))).enum).map
      (fun p => (g, p.1 + 1)))

/-- The `DELETE t ... INNER JOIN temp_dedup_keys d` statement: a table
row is deleted when SOME temp row with `rn > 1` matches its
`(DATE(Date), Employee_Name, Project_ID)` — the join does not constrain
the row number of the row being deleted. -/
def sql_delete_dups (table : List Row) : List Row :=
  table.filter (fun r =>
    !((temp_dedup_keys table).any (fun e =>
        e.1 == sql_group_key r && decide (1 < e.2))))

/-- `database.deduplicate_table_sql` (windowless branch; a window only
restricts which rows are in `table`).  Mirrors the source's control
flow: count before, build the temp table, count `rn > 1` as
`duplicates_removed`, return early when zero, otherwise run the delete
join and report `total_rows_after` as `before - duplicates_removed`. -/
def deduplicate_table_sql (table : List Row) : DeduplicationStats × List Row :=
  let before := table.length
  if before = 0 then ({}, table)
  else
    let removed := (temp_dedup_keys table).countP (fun e => decide (1 < e.2))
    if removed = 0 then
      ({ total_rows_before := before, total_rows_after := before }, table)
    else
      ({ total_rows_before := before, total_rows_after := before - removed,
         duplicates_removed := removed }, sql_delete_dups table)

/-- A generic dataframe for the schema-level contracts of
`deduplicate_dataframe`: named columns and rows of optional cells
(`none` is a missing value; pandas treats missing values as equal
inside `drop_duplicates`). -/
structure DataFrame where
  cols : List String
  rows : List (List (Option String))
deriving DecidableEq, Repr

/-- Line 174: the requested identity columns that exist in the schema. -/
def usable_columns (subset cols : List String) : List String :=
  subset.filter (fun c => cols.contains c)

/-- The identity tuple of a row under the usable columns. -/
def project_row (cols usable : List String) (row : List (Option String)) :
    List (Option String) :=
  usable.map (fun c => row.getD (cols.indexOf c) none)

/-- `data_processor.deduplicate_dataframe`: empty frame and no-usable-
column frames are returned unchanged; otherwise
`drop_duplicates(subset=usable, keep="last")`. -/
def deduplicate_dataframe (df : DataFrame) (subset : List String) : DataFrame :=
  if df.rows = [] then df
  else
    let u := usable_columns subset df.cols
    if u = [] then df
    else { df with rows := keep_last_by (project_row df.cols u) df.rows }

theorem keep_last_by_sublist [DecidableEq β] (key : α → β) (l : List α) :
    (keep_last_by key l).Sublist l := by
  induction l with
  | nil => simp [keep_last_by]
  | cons x xs ih =>
    by_cases h : ∃ y ∈ xs, key y = key x
    · simpa [keep_last_by, h] using ih.cons x
    · simpa [keep_last_by, h] using ih.cons₂ x

theorem keep_last_by_pairwise [DecidableEq β] (key : α → β) (l : List α) :
    (keep_last_by key l).Pairwise (fun a b => key a ≠ key b) := by
  induction l with
  | nil => simp [keep_last_by]
  | cons x xs ih =>
    by_cases h : ∃ y ∈ xs, key y = key x
    · simpa [keep_last_by, h] using ih
    · simp only [keep_last_by, h, if_false]
      refine List.Pairwise.cons (fun y hy hxy => ?_) ih
      exact h ⟨y, (keep_last_by_sublist key xs).mem hy, hxy.symm⟩

theorem keep_last_by_covers [DecidableEq β] (key : α → β) (l : List α) :
    ∀ r ∈ l, ∃ s ∈ keep_last_by key l, key s = key r := by
  induction l with
  | nil => simp
  | cons x xs ih =>
    intro r hr
    by_cases h : ∃ y ∈ xs, key y = key x
    · simp only [keep_last_by, h, if_true]
      rcases List.mem_cons.1 hr with rfl | hr'
      · obtain ⟨y, hy, hky⟩ := h
        obtain ⟨s, hs, hks⟩ := ih y hy
        exact ⟨s, hs, hks.trans hky⟩
      · exact ih r hr'
    · simp only [keep_last_by, h, if_false]
      rcases List.mem_cons.1 hr with h' | hr'
      · subst h'
        exact ⟨_, List.mem_cons_self _ _, rfl⟩
      · obtain ⟨s, hs, hks⟩ := ih r hr'
        exact ⟨s, List.mem_cons_of_mem _ hs, hks⟩

theorem getLast?_cons_of_ne_nil (x : α) (l : List α) (h : l ≠ []) :
    (x :: l).getLast? = l.getLast? := by
  cases l with
  | nil => exact absurd rfl h
  | cons y ys => simp [List.getLast?_cons_cons]

theorem keep_last_by_getLast [DecidableEq β] (key : α → β) (l : List α) :
    ∀ s ∈ keep_last_by key l,
      (l.filter (fun x => decide (key x = key s))).getLast? = some s := by
  induction l with
  | nil => simp [keep_last_by]
  | cons x xs ih =>
    intro s hs
    by_cases h : ∃ y ∈ xs, key y = key x
    · simp only [keep_last_by, h, if_true] at hs
      by_cases hxs : key x = key s
      · have hne : xs.filter (fun y => decide (key y = key s)) ≠ [] := by
          obtain ⟨y, hy, hky⟩ := h
          intro hnil
          have hmem : y ∈ xs.filter (fun z => decide (key z = key s)) := by
            simp [List.mem_filter, hy, hky.trans hxs]
          rw [hnil] at hmem
          exact absurd hmem (List.not_mem_nil y)
        rw [List.filter_cons_of_pos (by simp [hxs]), getLast?_cons_of_ne_nil _ _ hne]
        exact ih s hs
      · rw [List.filter_cons_of_neg (by simp [hxs])]
        exact ih s hs
    · simp only [keep_last_by, h, if_false] at hs
      rcases List.mem_cons.1 hs with h' | hs'
      · subst h'
        have hnil : xs.filter (fun y => decide (key y = key s)) = [] := by
          apply List.filter_eq_nil_iff.2
          intro y hy
          simp only [decide_eq_true_eq]
          exact fun hky => h ⟨y, hy, hky⟩
        rw [List.filter_cons_of_pos (by simp), hnil]
        rfl
      · have hxs : ¬ (key x = key s) := fun hk =>
          h ⟨s, (keep_last_by_sublist key xs).mem hs', hk.symm⟩
        rw [List.filter_cons_of_neg (by simp [hxs])]
        exact ih s hs'

theorem length_filter_disjoint (l : List α) (p q : α → Bool)
    (h : ∀ a ∈ l, p a = true → q a = false) :
    (l.filter p).length + (l.filter q).length ≤ l.length := by
  induction l with
  | nil => simp
  | cons x xs ih =>
    have ih' := ih (fun a ha => h a (List.mem_cons_of_mem _ ha))
    by_cases hp : p x = true
    · simp [List.filter_cons, hp, h x (List.mem_cons_self _ _) hp]
      omega
    · simp only [List.filter_cons, Bool.not_eq_true] at hp ⊢
      rw [hp]
      by_cases hq : q x = true <;> simp [hq] <;> omega

theorem filter_simple_key_singleton (l : List Row)
    (hnd : (l.map build_simple_key).Nodup) (r : Row) (hr : r ∈ l) :
    l.filter (fun x => build_simple_key x == build_simple_key r) = [r] := by
  induction l with
  | nil => cases hr
  | cons x xs ih =>
    simp only [List.map_cons, List.nodup_cons] at hnd
    rcases List.mem_cons.1 hr with h' | hr'
    · subst h'
      rw [List.filter_cons_of_pos (by simp)]
      have hnil : xs.filter (fun y => build_simple_key y == build_simple_key r) = [] := by
        apply List.filter_eq_nil_iff.2
        intro y hy
        simp only [beq_iff_eq, Bool.not_eq_true]
        intro hk
        exact hnd.1 (hk ▸ List.mem_map_of_mem build_simple_key hy)
      rw [hnil]
    · have hx : (build_simple_key x == build_simple_key r) = false := by
        simp only [beq_eq_false_iff_ne, ne_eq]
        intro hk
        exact hnd.1 (hk ▸ List.mem_map_of_mem build_simple_key hr')
      simp only [List.filter_cons, hx, Bool.false_eq_true, if_false]
      exact ih hnd.2 hr'

theorem existing_sig_self (l : List Row) (hnd : (l.map build_simple_key).Nodup)
    (r : Row) (hr : r ∈ l) :
    existing_signature_by_key l (build_simple_key r) = some (build_signature r) := by
  unfold existing_signature_by_key
  have hperm : (List.insertionSort key_date_le l).Perm l :=
    List.perm_insertionSort key_date_le l
  have hnd' : ((List.insertionSort key_date_le l).map build_simple_key).Nodup :=
    ((hperm.map build_simple_key).nodup_iff).2 hnd
  have hr' : r ∈ List.insertionSort key_date_le l := hperm.mem_iff.2 hr
  rw [filter_simple_key_singleton _ hnd' r hr']
  rfl

/-- Claim C3: full-record reconciliation classifies every keyable new
record into exactly one of insert, update, skip against the canonical
existing map (absent key means insert, equal signature means skip,
different signature means update), and the reported counts satisfy
`skipped = keyable total - inserted - updated`, stated as
`inserted + updated + skipped = keyable total` (persistence succeeding;
a store failure under-reports `inserted` and `updated`, see C8). -/
theorem claim_C3_classification (new_records existing store : List Row) :
    (∀ r ∈ working_keyed new_records,
      ((existing_signature_by_key existing (build_simple_key r) = none →
          r ∈ to_insert_list new_records existing ∧
          r ∉ to_update_list new_records existing) ∧
       (∀ s, existing_signature_by_key existing (build_simple_key r) = some s →
          ((s = build_signature r →
            r ∉ to_insert_list new_records existing ∧
            r ∉ to_update_list new_records existing) ∧
           (s ≠ build_signature r →
            r ∈ to_update_list new_records existing ∧
            r ∉ to_insert_list new_records existing))))) ∧
    ((process_timesheet_changes {} new_records existing store).1.inserted +
       (process_timesheet_changes {} new_records existing store).1.updated +
       (process_timesheet_changes {} new_records existing store).1.skipped =
     (working_keyed new_records).length) := by
  constructor
  · intro r hr
    refine ⟨fun hnone => ?_, fun s hsome => ⟨fun heq => ?_, fun hne => ?_⟩⟩
    · constructor
      · simp [to_insert_list, List.mem_filter, hr, hnone]
      · simp [to_update_list, List.mem_filter, hnone, is_changed]
    · constructor
      · simp [to_insert_list, List.mem_filter, hsome]
      · simp [to_update_list, List.mem_filter, hsome, is_changed, heq]
    · constructor
      · simp [to_update_list, List.mem_filter, hr, hsome, is_changed, hne]
      · simp [to_insert_list, List.mem_filter, hsome]
  · have hdisj := length_filter_disjoint (working_keyed new_records)
      (fun r => (existing_signature_by_key existing (build_simple_key r)).isNone)
      (fun r => is_changed (existing_signature_by_key existing (build_simple_key r)) r)
      (by
        intro a _ hp
        simp only [Option.isNone_iff_eq_none] at hp
        simp [hp, is_changed])
    by_cases h1 : new_records = []
    · simp [process_timesheet_changes, h1, working_keyed]
    · by_cases h2 : working_keyed new_records = []
      · simp [process_timesheet_changes, h1, h2]
      · by_cases h3 : to_insert_list new_records existing = [] ∧
            to_update_list new_records existing = []
        · simp [process_timesheet_changes, h1, h2, h3, h3.1, h3.2]
        · simp only [process_timesheet_changes, h1, h2, h3, if_false, ite_self]
          simp only [to_insert_list, to_update_list] at hdisj ⊢
          omega

def c3_new_row : Row :=
  { date := some "2025-01-02", employee := .str "Carol", project_id := .str "P9",
    hours := .int 4 }

/-- Witness for C3: against an empty existing snapshot the concrete
keyable row is classified insert and not update. -/
theorem claim_C3_witness :
    set_keys c3_new_row ∈ to_insert_list [c3_new_row] [] ∧
    set_keys c3_new_row ∉ to_update_list [c3_new_row] [] :=
  ((claim_C3_classification [c3_new_row] [] []).1 (set_keys c3_new_row)
    (by decide)).1 (by decide)

def c1_hours8 : Row :=
  { date := some "2025-01-01", employee := .str "Alice", project_id := .str "P1",
    hours := .int 8 }

def c1_hours6 : Row :=
  { date := some "2025-01-01", employee := .str "Alice", project_id := .str "P1",
    hours := .int 6 }

/-- Claim C1 evaluated on its own example: the store-side deduplicator
run over the two duplicate rows `(2025-01-01, Alice, P1)` with hours 8
and 6 reports `duplicates_removed = 1` (and `total_rows_after = 1`),
but the delete join — which matches on the identity key only, not on
the row number — removes BOTH rows of the group, including the rank-1
hours=8 row the claim says remains. -/
theorem claim_C1_eval :
    (deduplicate_table_sql [c1_hours8, c1_hours6]).1.duplicates_removed = 1 ∧
    (deduplicate_table_sql [c1_hours8, c1_hours6]).1.total_rows_after = 1 ∧
    (deduplicate_table_sql [c1_hours8, c1_hours6]).2 = [] ∧
    c1_hours8 ∉ (deduplicate_table_sql [c1_hours8, c1_hours6]).2 := by
  decide

def c2_no_row : Row :=
  { date := some "2025-01-01", employee := .str "Bob", project_id := .str "P2",
    hours := .int 0, status := .str "no" }

def c2_incomplete_row : Row :=
  { date := some "2025-01-01", employee := .str "Bob", project_id := .str "P2",
    hours := .int 0, status := .str "Incomplete" }

/-- Claim C2 evaluated on its own examples: `enforce_hours_status_rule`
KEEPS the row with hours 0 and status `"no"` (nulling its hours),
although `"no"` is non-meaningful under the repository's own
`clean_status_value` / `NON_MEANINGFUL_STATUS`, because the rule only
tests trimmed non-emptiness; the `"Incomplete"` row is kept with hours
nulled as the claim states. -/
theorem claim_C2_eval :
    enforce_hours_status_rule [c2_no_row] = [{ c2_no_row with hours := .na }] ∧
    clean_status_value (.str "no") = "" ∧
    enforce_hours_status_rule [c2_incomplete_row] =
      [{ c2_incomplete_row with hours := .na }] := by
  decide

def c4_row : Row :=
  { date := some "2025-01-01", employee := .str "Alice", project_id := .str "P1",
    hours := .na, status := .str "Incomplete" }

def c4_store : List Row := (process_timesheet_changes {} [c4_row] [] []).2.1

/-- Counterexample to claim C4 as stated: a single-row batch with null
hours and meaningful status is inserted by the first run, but the
persisted row carries the formatted renderings (`\N` hours sentinel,
`unknown` text fill), so the second run of the same batch against the
updated store sees a different signature and classifies the row UPDATE
(one update, not zero). -/
theorem claim_C4_counterexample :
    (process_timesheet_changes {} [c4_row] c4_store c4_store).1.updated = 1 ∧
    (process_timesheet_changes {} [c4_row] c4_store c4_store).1.inserted = 0 := by
  decide

def c5_old : Row :=
  { date := some "2025-01-01", employee := .str "Alice", project_id := .str "P1",
    hours := .int 8, status := .str "Complete" }

def c5_new : Row :=
  { date := some "2025-01-01", employee := .str "Alice", project_id := .str "P1",
    hours := .int 6, status := .str "Complete" }

/-- Claim C5 evaluated at a failing insert: the update of the
`(2025-01-01, Alice, P1)` row is applied as a delete in one transaction
followed by a bulk insert in another; when the insert raises, the
delete has already committed, so the store is left EMPTY (the old row
gone, the new version absent) while a single batch-level error is
reported — exactly the half-applied state the claim forbids. -/
theorem claim_C5_eval :
    (process_timesheet_changes { insert_err := some "bulk insert failed" }
        [c5_new] [c5_old] [c5_old]).1.updated = 1 ∧
    (process_timesheet_changes { insert_err := some "bulk insert failed" }
        [c5_new] [c5_old] [c5_old]).1.errors = [ts_err_msg "bulk insert failed"] ∧
    (process_timesheet_changes { insert_err := some "bulk insert failed" }
        [c5_new] [c5_old] [c5_old]).2.1 = [] := by
  decide

theorem build_simple_key_set_keys (r : Row) :
    build_simple_key (set_keys r) = build_simple_key r := rfl

theorem build_signature_set_keys (r : Row) :
    build_signature (set_keys r) = build_signature r := rfl

theorem working_keyed_all (new_records : List Row)
    (h : ∀ r ∈ new_records, keyable r = true) :
    working_keyed new_records = new_records.map set_keys := by
  unfold working_keyed
  rw [List.filter_eq_self.2 h]

theorem enforce_all (l : List Row)
    (h : ∀ r ∈ l, (hours_pos r || !(normalize_text r.status == "")) = true) :
    enforce_hours_status_rule l = l.map enforce_row := by
  unfold enforce_hours_status_rule
  rw [List.filter_eq_self.2 h]

/-- Claim C4, amended: reconciliation is idempotent for batches whose
rows are all keyable, have pairwise-distinct simple keys, pass the
hours/status keep rule, and whose simple key and signature are left
unchanged by the enforce-and-format persistence pipeline; for such a
batch, a second run of the same batch against the store produced by a
first run (from an empty store) classifies everything skip — zero
inserts, zero updates.  In general the claim fails because the
persisted rows carry formatted renderings (see the counterexample). -/
theorem claim_C4_amended (batch : List Row)
    (hkey : ∀ r ∈ batch, keyable r = true)
    (hnd : (batch.map build_simple_key).Nodup)
    (hkeep : ∀ r ∈ batch, (hours_pos r || !(normalize_text r.status == "")) = true)
    (hstable : ∀ r ∈ batch,
      build_simple_key (format_row (enforce_row (clear_keys (set_keys r)))) =
        build_simple_key r ∧
      build_signature (format_row (enforce_row (clear_keys (set_keys r)))) =
        build_signature r) :
    (process_timesheet_changes {} batch
        (process_timesheet_changes {} batch [] []).2.1
        (process_timesheet_changes {} batch [] []).2.1).1.inserted = 0 ∧
    (process_timesheet_changes {} batch
        (process_timesheet_changes {} batch [] []).2.1
        (process_timesheet_changes {} batch [] []).2.1).1.updated = 0 := by
  by_cases hb : batch = []
  · subst hb
    exact ⟨rfl, rfl⟩
  · have hw : working_keyed batch = batch.map set_keys := working_keyed_all batch hkey
    have hwne : working_keyed batch ≠ [] := by
      rw [hw]
      simpa using hb
    have hins0 : to_insert_list batch [] = working_keyed batch :=
      List.filter_eq_self.2 (fun r _ => rfl)
    have hupd0 : to_update_list batch [] = [] :=
      List.filter_eq_nil_iff.2 (fun r _ => Bool.false_ne_true)
    have hinsne : to_insert_list batch [] ≠ [] := by
      rw [hins0]
      exact hwne
    have hkeep' : ∀ x ∈ (to_insert_list batch [] ++ to_update_list batch []).map clear_keys,
        (hours_pos x || !(normalize_text x.status == "")) = true := by
      rw [hins0, hupd0, List.append_nil, hw, List.map_map]
      intro x hx
      obtain ⟨r, hr, rfl⟩ := List.mem_map.1 hx
      exact hkeep r hr
    have hpayload : ts_payload batch [] =
        batch.map (fun r => format_row (enforce_row (clear_keys (set_keys r)))) := by
      unfold ts_payload prepare_timesheet_for_insert format_for_mysql
      rw [enforce_all _ hkeep', hins0, hupd0, List.append_nil, hw,
        List.map_map, List.map_map, List.map_map]
      rfl
    have hstore : (process_timesheet_changes {} batch [] []).2.1 =
        batch.map (fun r => format_row (enforce_row (clear_keys (set_keys r)))) := by
      simp only [process_timesheet_changes, hb, if_false, hwne, hupd0, hinsne, hpayload,
        ite_self]
      simp [hinsne, hpayload]
    have hndex : ((batch.map (fun r => format_row (enforce_row (clear_keys (set_keys r))))).map
        build_simple_key).Nodup := by
      rw [List.map_map]
      have hcongr : batch.map
          (build_simple_key ∘ fun r => format_row (enforce_row (clear_keys (set_keys r)))) =
          batch.map build_simple_key :=
        List.map_congr_left (fun r hr => (hstable r hr).1)
      rw [hcongr]
      exact hnd
    have hins2 : to_insert_list batch
        (batch.map (fun r => format_row (enforce_row (clear_keys (set_keys r))))) = [] := by
      apply List.filter_eq_nil_iff.2
      intro x hx
      rw [hw] at hx
      obtain ⟨r, hr, rfl⟩ := List.mem_map.1 hx
      have hmem := List.mem_map_of_mem
        (fun r => format_row (enforce_row (clear_keys (set_keys r)))) hr
      have hsig := existing_sig_self _ hndex _ hmem
      have hkeyeq : build_simple_key (set_keys r) =
          build_simple_key (format_row (enforce_row (clear_keys (set_keys r)))) := by
        rw [build_simple_key_set_keys]
        exact ((hstable r hr).1).symm
      simp only [hkeyeq, hsig]
      simp
    have hupd2 : to_update_list batch
        (batch.map (fun r => format_row (enforce_row (clear_keys (set_keys r))))) = [] := by
      apply List.filter_eq_nil_iff.2
      intro x hx
      rw [hw] at hx
      obtain ⟨r, hr, rfl⟩ := List.mem_map.1 hx
      have hmem := List.mem_map_of_mem
        (fun r => format_row (enforce_row (clear_keys (set_keys r)))) hr
      have hsig := existing_sig_self _ hndex _ hmem
      have hkeyeq : build_simple_key (set_keys r) =
          build_simple_key (format_row (enforce_row (clear_keys (set_keys r)))) := by
        rw [build_simple_key_set_keys]
        exact ((hstable r hr).1).symm
      have hsigeq : build_signature (format_row (enforce_row (clear_keys (set_keys r)))) =
          build_signature (set_keys r) := by
        rw [build_signature_set_keys]
        exact (hstable r hr).2
      simp only [hkeyeq, hsig, is_changed, hsigeq]
      simp
    rw [hstore]
    constructor <;>
      simp [process_timesheet_changes, hb, hwne, hins2, hupd2]

def c4_stable_row : Row :=
  { date := some "2025-01-01", employee := .str "Alice", role := .str "Dev",
    office := .str "Vienna", project_name := .str "Research", project_id := .str "P1",
    hours := .int 8, status := .str "Complete", interviews := .int 0,
    database := .int 0, database_converted := .int 0 }

/-- Witness for the amended C4: a fully-populated integer-hours row is
formatting-stable, and the second run over it yields zero inserts and
zero updates. -/
theorem claim_C4_witness :
    (process_timesheet_changes {} [c4_stable_row]
        (process_timesheet_changes {} [c4_stable_row] [] []).2.1
        (process_timesheet_changes {} [c4_stable_row] [] []).2.1).1.inserted = 0 ∧
    (process_timesheet_changes {} [c4_stable_row]
        (process_timesheet_changes {} [c4_stable_row] [] []).2.1
        (process_timesheet_changes {} [c4_stable_row] [] []).2.1).1.updated = 0 :=
  claim_C4_amended [c4_stable_row] (by decide) (by decide) (by decide) (by decide)

/-- Equality of two rows on every column except `Status`. -/
def same_but_status (t t' : Row) : Prop :=
  t'.date = t.date ∧ t'.employee = t.employee ∧ t'.role = t.role ∧
  t'.office = t.office ∧ t'.project_name = t.project_name ∧
  t'.project_id = t.project_id ∧ t'.hours = t.hours ∧
  t'.interviews = t.interviews ∧ t'.database = t.database ∧
  t'.database_converted = t.database_converted ∧
  t'.simple_key = t.simple_key ∧ t'.signature = t.signature

/-- The cumulative effect of `update_status_records` on one store row. -/
def apply_status_updates_row (us : List Row) (t : Row) : Row :=
  us.foldl (fun acc u => apply_status_update u acc) t

theorem update_status_records_map (store us : List Row) :
    update_status_records store us = store.map (apply_status_updates_row us) := by
  induction us generalizing store with
  | nil =>
    have h : apply_status_updates_row [] = fun t : Row => t := funext (fun _ => rfl)
    rw [h]
    simp [update_status_records]
  | cons u rest ih =>
    have h1 : update_status_records store (u :: rest) =
        update_status_records (store.map (apply_status_update u)) rest := rfl
    rw [h1, ih, List.map_map]
    rfl

theorem same_but_status_trans {a b c : Row} (h1 : same_but_status a b)
    (h2 : same_but_status b c) : same_but_status a c := by
  unfold same_but_status at *
  obtain ⟨e1, e2, e3, e4, e5, e6, e7, e8, e9, e10, e11, e12⟩ := h1
  obtain ⟨f1, f2, f3, f4, f5, f6, f7, f8, f9, f10, f11, f12⟩ := h2
  exact ⟨f1.trans e1, f2.trans e2, f3.trans e3, f4.trans e4, f5.trans e5,
    f6.trans e6, f7.trans e7, f8.trans e8, f9.trans e9, f10.trans e10,
    f11.trans e11, f12.trans e12⟩

theorem apply_status_update_same (u t : Row) :
    same_but_status t (apply_status_update u t) := by
  unfold apply_status_update same_but_status
  split <;> simp

theorem apply_status_update_status (u t : Row) :
    (apply_status_update u t).status = t.status ∨
    (apply_status_update u t).status = u.status := by
  unfold apply_status_update
  split
  · right; rfl
  · left; rfl

theorem apply_status_updates_row_same (us : List Row) (t : Row) :
    same_but_status t (apply_status_updates_row us t) := by
  induction us generalizing t with
  | nil =>
    unfold apply_status_updates_row same_but_status
    simp
  | cons u rest ih =>
    have hstep : apply_status_updates_row (u :: rest) t =
        apply_status_updates_row rest (apply_status_update u t) := rfl
    rw [hstep]
    exact same_but_status_trans (apply_status_update_same u t)
      (ih (apply_status_update u t))

theorem apply_status_updates_row_status (us : List Row) (t : Row) :
    (apply_status_updates_row us t).status = t.status ∨
    ∃ u ∈ us, (apply_status_updates_row us t).status = u.status := by
  induction us generalizing t with
  | nil => left; rfl
  | cons u rest ih =>
    have hstep : apply_status_updates_row (u :: rest) t =
        apply_status_updates_row rest (apply_status_update u t) := rfl
    rw [hstep]
    rcases ih (apply_status_update u t) with h | ⟨u', hu', h⟩
    · rcases apply_status_update_status u t with h' | h'
      · left; exact h.trans h'
      · right; exact ⟨u, List.mem_cons_self _ _, h.trans h'⟩
    · right; exact ⟨u', List.mem_cons_of_mem _ hu', h⟩

theorem apply_status_updates_row_unmatched (us : List Row) (t : Row)
    (h : ∀ u ∈ us, (dateStr t == dateStr u && t.employee == u.employee &&
        t.project_id == u.project_id) = false) :
    apply_status_updates_row us t = t := by
  induction us generalizing t with
  | nil => rfl
  | cons u rest ih =>
    have hstep : apply_status_update u t = t := by
      unfold apply_status_update
      rw [h u (List.mem_cons_self _ _)]
      simp
    have hchain : apply_status_updates_row (u :: rest) t =
        apply_status_updates_row rest (apply_status_update u t) := rfl
    rw [hchain, hstep]
    exact ih t (fun u' hu' => h u' (List.mem_cons_of_mem _ hu'))

/-- Claim C6: the status-only planner classifies each cleaned working
record by the cleaned existing status under its simple key — empty
(no record, or no meaningful status) means insert; meaningful and equal
after strip plus casefold means neither insert nor update; meaningful
and different means update — and updates are applied through
`update_status_records`, an in-place `Status`-column update scoped by
`(DATE(Date), Employee_Name, Project_ID)` that leaves every other
column of every store row unchanged and leaves unmatched rows whole. -/
theorem claim_C6_status (status_df existing store : List Row) :
    (∀ r ∈ status_working status_df,
      ((existing_status_clean existing r = "" →
          r ∈ status_inserts_list status_df existing ∧
          r ∉ status_updates_list status_df existing) ∧
       (existing_status_clean existing r ≠ "" →
        ((py_lower (py_strip (existing_status_clean existing r)) =
            py_lower (py_strip (val_str r.status)) →
          r ∉ status_inserts_list status_df existing ∧
          r ∉ status_updates_list status_df existing) ∧
         (py_lower (py_strip (existing_status_clean existing r)) ≠
            py_lower (py_strip (val_str r.status)) →
          r ∈ status_updates_list status_df existing ∧
          r ∉ status_inserts_list status_df existing))))) ∧
    (status_df ≠ [] → status_working status_df ≠ [] →
      (process_status_updates {} status_df existing store).2.1 =
        update_status_records store (status_updates_list status_df existing) ++
          status_payload status_df existing) ∧
    (update_status_records store (status_updates_list status_df existing) =
      store.map (apply_status_updates_row (status_updates_list status_df existing))) ∧
    (∀ t ∈ store,
      same_but_status t
        (apply_status_updates_row (status_updates_list status_df existing) t) ∧
      ((apply_status_updates_row (status_updates_list status_df existing) t).status =
          t.status ∨
        ∃ u ∈ status_updates_list status_df existing,
          (apply_status_updates_row (status_updates_list status_df existing) t).status =
            u.status) ∧
      ((∀ u ∈ status_updates_list status_df existing,
          (dateStr t == dateStr u && t.employee == u.employee &&
            t.project_id == u.project_id) = false) →
        apply_status_updates_row (status_updates_list status_df existing) t = t)) := by
  refine ⟨?_, ?_, update_status_records_map store _, ?_⟩
  · intro r hr
    refine ⟨fun hempty => ?_, fun hne => ⟨fun heq => ?_, fun hneq => ?_⟩⟩
    · constructor
      · simp [status_inserts_list, List.mem_filter, hr, hempty]
      · simp [status_updates_list, List.mem_filter, hempty]
    · constructor
      · simp [status_inserts_list, List.mem_filter, hne]
      · simp [status_updates_list, List.mem_filter, heq]
    · constructor
      · simp [status_updates_list, List.mem_filter, hr, hne, hneq]
      · simp [status_inserts_list, List.mem_filter, hne]
  · intro h1 h2
    by_cases hupd : status_updates_list status_df existing = []
    · simp [process_status_updates, h1, h2, hupd, update_status_records, ite_self]
    · simp [process_status_updates, h1, h2, hupd, ite_self]
  · intro t _
    exact ⟨apply_status_updates_row_same _ t, apply_status_updates_row_status _ t,
      apply_status_updates_row_unmatched _ t⟩

def c6_existing : Row :=
  { date := some "2025-01-01", employee := .str "Alice", project_id := .str "P1",
    status := .str "Pending" }

def c6_new : Row :=
  { date := some "2025-01-01", employee := .str "Alice", project_id := .str "P1",
    status := .str "Complete" }

/-- Witness for C6: existing status `Pending` and new status `Complete`
classify the record as update and not insert. -/
theorem claim_C6_witness :
    c6_new ∈ status_updates_list [c6_new] [c6_existing] ∧
    c6_new ∉ status_inserts_list [c6_new] [c6_existing] :=
  (((claim_C6_status [c6_new] [c6_existing] []).1 c6_new (by decide)).2
    (by decide)).2 (by decide)

/-- Claim C7: the in-memory deduplicator returns at most one row per
identity tuple over the usable columns, keeps the last occurrence in
input order (the kept row for each tuple is the last of its filter
class), returns a subsequence of the input, and — when none of the
requested identity columns exist in the schema — returns the input
unchanged rather than raising. -/
theorem claim_C7_dedup (df : DataFrame) (subset : List String) :
    (usable_columns subset df.cols = [] → deduplicate_dataframe df subset = df) ∧
    ((deduplicate_dataframe df subset).rows.Sublist df.rows) ∧
    (usable_columns subset df.cols ≠ [] →
      ((deduplicate_dataframe df subset).rows.Pairwise (fun a b =>
          project_row df.cols (usable_columns subset df.cols) a ≠
          project_row df.cols (usable_columns subset df.cols) b) ∧
       (∀ r ∈ df.rows, ∃ s ∈ (deduplicate_dataframe df subset).rows,
          project_row df.cols (usable_columns subset df.cols) s =
          project_row df.cols (usable_columns subset df.cols) r) ∧
       (∀ s ∈ (deduplicate_dataframe df subset).rows,
          (df.rows.filter (fun x =>
            decide (project_row df.cols (usable_columns subset df.cols) x =
              project_row df.cols (usable_columns subset df.cols) s))).getLast? =
            some s))) := by
  by_cases hrows : df.rows = []
  · refine ⟨fun _ => by simp [deduplicate_dataframe, hrows], ?_, fun hu => ⟨?_, ?_, ?_⟩⟩ <;>
      simp [deduplicate_dataframe, hrows]
  · by_cases hu : usable_columns subset df.cols = []
    · refine ⟨fun _ => by simp [deduplicate_dataframe, hrows, hu], ?_,
        fun hu' => absurd hu hu'⟩
      simp [deduplicate_dataframe, hrows, hu]
    · have hd : (deduplicate_dataframe df subset).rows =
          keep_last_by (project_row df.cols (usable_columns subset df.cols)) df.rows := by
        simp [deduplicate_dataframe, hrows, hu]
      refine ⟨fun h => absurd h hu, ?_, fun _ => ⟨?_, ?_, ?_⟩⟩
      · rw [hd]
        exact keep_last_by_sublist _ _
      · rw [hd]
        exact keep_last_by_pairwise _ _
      · rw [hd]
        exact keep_last_by_covers _ _
      · rw [hd]
        exact keep_last_by_getLast _ _

def df7 : DataFrame :=
  { cols := ["A", "B"],
    rows := [[some "x", some "1"], [some "x", some "2"]] }

/-- Witness for C7: deduplicating on a present column leaves pairwise
distinct tuples, and requesting only an absent column is a no-op. -/
theorem claim_C7_witness :
    (deduplicate_dataframe df7 ["A"]).rows.Pairwise (fun a b =>
      project_row df7.cols (usable_columns ["A"] df7.cols) a ≠
      project_row df7.cols (usable_columns ["A"] df7.cols) b) ∧
    deduplicate_dataframe df7 ["C"] = df7 :=
  ⟨((claim_C7_dedup df7 ["A"]).2.2 (by decide)).1,
   (claim_C7_dedup df7 ["C"]).1 (by decide)⟩

/-- Claim C10: when some but not all requested identity columns exist in
the schema, the deduplicator deduplicates on exactly the present subset
(keep last), so two rows agreeing on every present requested column —
differing only in absent columns — collapse to one. -/
theorem claim_C10_subset (df : DataFrame) (subset : List String)
    (hsome : usable_columns subset df.cols ≠ [])
    (hmiss : ∃ c ∈ subset, df.cols.contains c = false) :
    (deduplicate_dataframe df subset).rows =
      keep_last_by (project_row df.cols (usable_columns subset df.cols)) df.rows ∧
    (deduplicate_dataframe df subset).rows.Pairwise (fun a b =>
      project_row df.cols (usable_columns subset df.cols) a ≠
      project_row df.cols (usable_columns subset df.cols) b) ∧
    (∀ a b : List (Option String),
      (∀ c ∈ subset, df.cols.contains c = true →
        a.getD (df.cols.indexOf c) none = b.getD (df.cols.indexOf c) none) →
      project_row df.cols (usable_columns subset df.cols) a =
      project_row df.cols (usable_columns subset df.cols) b) := by
  have hd : (deduplicate_dataframe df subset).rows =
      keep_last_by (project_row df.cols (usable_columns subset df.cols)) df.rows := by
    by_cases hrows : df.rows = []
    · simp [deduplicate_dataframe, hrows, keep_last_by]
    · simp [deduplicate_dataframe, hrows, hsome]
  refine ⟨hd, ?_, ?_⟩
  · rw [hd]
    exact keep_last_by_pairwise _ _
  · intro a b hab
    unfold project_row
    apply List.map_congr_left
    intro c hc
    have hc' := List.mem_filter.1 hc
    exact hab c hc'.1 hc'.2

def df10 : DataFrame :=
  { cols := ["K", "B"],
    rows := [[some "k", some "1"], [some "k", some "2"]] }

/-- Witness for C10: requesting the present column `K` and the absent
column `Z` collapses the two rows that differ only in `B`. -/
theorem claim_C10_witness :
    (deduplicate_dataframe df10 ["K", "Z"]).rows =
      keep_last_by (project_row df10.cols (usable_columns ["K", "Z"] df10.cols))
        df10.rows :=
  (claim_C10_subset df10 ["K", "Z"] (by decide) (by decide)).1

/-- Claim C8: an exception raised by the delete or bulk-insert step of
timesheet processing, or by the status-update or bulk-insert step of
status processing, is caught inside the operation, recorded as a single
plain-text message in the returned stats' error list, and the operation
returns normally (in this embedding both operations are total functions
into their stats type, so no exception can cross the boundary). -/
theorem claim_C8_errors
    (n₁ x₁ s₁ n₂ x₂ s₂ m₁ y₁ t₁ m₂ y₂ t₂ : List Row) (e₁ e₂ e₃ e₄ : String) :
    (to_update_list n₁ x₁ ≠ [] →
      (process_timesheet_changes { delete_err := some e₁ } n₁ x₁ s₁).1.errors =
        [ts_err_msg e₁]) ∧
    (to_update_list n₂ x₂ = [] → to_insert_list n₂ x₂ ≠ [] → ts_payload n₂ x₂ ≠ [] →
      (process_timesheet_changes { insert_err := some e₂ } n₂ x₂ s₂).1.errors =
        [ts_err_msg e₂]) ∧
    (status_updates_list m₁ y₁ ≠ [] →
      (process_status_updates { update_err := some e₃ } m₁ y₁ t₁).1.errors =
        [status_err_msg e₃]) ∧
    (status_updates_list m₂ y₂ = [] → status_inserts_list m₂ y₂ ≠ [] →
      status_payload m₂ y₂ ≠ [] →
      (process_status_updates { insert_err := some e₄ } m₂ y₂ t₂).1.errors =
        [status_err_msg e₄]) := by
  refine ⟨fun h => ?_, fun h0 h1 h2 => ?_, fun h => ?_, fun h0 h1 h2 => ?_⟩
  · have hwne : working_keyed n₁ ≠ [] := fun hw => h (by simp [to_update_list, hw])
    have hn : n₁ ≠ [] := fun hn => hwne (by rw [hn]; rfl)
    have h3 : ¬(to_insert_list n₁ x₁ = [] ∧ to_update_list n₁ x₁ = []) :=
      fun hc => h hc.2
    simp [process_timesheet_changes, hn, hwne, h3, h]
  · have hwne : working_keyed n₂ ≠ [] := fun hw => h1 (by simp [to_insert_list, hw])
    have hn : n₂ ≠ [] := fun hn => hwne (by rw [hn]; rfl)
    have h3 : ¬(to_insert_list n₂ x₂ = [] ∧ to_update_list n₂ x₂ = []) :=
      fun hc => h1 hc.1
    simp [process_timesheet_changes, hn, hwne, h3, h0, h1, h2]
  · have hwne : status_working m₁ ≠ [] := fun hw => h (by simp [status_updates_list, hw])
    have hm : m₁ ≠ [] := fun hm => hwne (by rw [hm]; rfl)
    simp [process_status_updates, hm, hwne, h]
  · have hwne : status_working m₂ ≠ [] := fun hw => h1 (by simp [status_inserts_list, hw])
    have hm : m₂ ≠ [] := fun hm => hwne (by rw [hm]; rfl)
    simp [process_status_updates, hm, hwne, h0, h1, h2]

def c8_old : Row :=
  { date := some "2025-02-01", employee := .str "Dana", project_id := .str "P3",
    hours := .int 8, status := .str "Complete" }

def c8_new : Row :=
  { date := some "2025-02-01", employee := .str "Dana", project_id := .str "P3",
    hours := .int 6, status := .str "Complete" }

def c8_ins : Row :=
  { date := some "2025-02-02", employee := .str "Erik", project_id := .str "P4",
    hours := .int 5 }

def c8_sex : Row :=
  { date := some "2025-02-03", employee := .str "Fay", project_id := .str "P5",
    status := .str "Pending" }

def c8_snew : Row :=
  { date := some "2025-02-03", employee := .str "Fay", project_id := .str "P5",
    status := .str "Complete" }

def c8_sins : Row :=
  { date := some "2025-02-04", employee := .str "Gil", project_id := .str "P6",
    status := .str "Pending" }

/-- Witness for C8: at concrete failing inputs each of the four
persistence steps records exactly its message in the error list. -/
theorem claim_C8_witness :
    (process_timesheet_changes { delete_err := some "d" } [c8_new] [c8_old]
        [c8_old]).1.errors = [ts_err_msg "d"] ∧
    (process_timesheet_changes { insert_err := some "i" } [c8_ins] []
        []).1.errors = [ts_err_msg "i"] ∧
    (process_status_updates { update_err := some "u" } [c8_snew] [c8_sex]
        [c8_sex]).1.errors = [status_err_msg "u"] ∧
    (process_status_updates { insert_err := some "j" } [c8_sins] []
        []).1.errors = [status_err_msg "j"] := by
  have h := claim_C8_errors [c8_new] [c8_old] [c8_old] [c8_ins] [] []
    [c8_snew] [c8_sex] [c8_sex] [c8_sins] [] [] "d" "i" "u" "j"
  exact ⟨h.1 (by decide), h.2.1 (by decide) (by decide) (by decide),
    h.2.2.1 (by decide), h.2.2.2 (by decide) (by decide) (by decide)⟩

/-- Claim C9: whenever the branch assigning keys onto the existing
snapshot executes (non-empty input batch, non-empty cleaned working
set, non-empty existing frame), both operations return the caller's
`existing_records` frame with the derived key columns assigned in
place — `simple_key` and `signature` for timesheet processing,
`simple_key` only for status processing — under every oracle; the
`new_records` and `status_df` arguments are copied on entry in the
source, which the embedding reflects by never rebinding them. -/
theorem claim_C9_frame (new_records existing store sdf sexisting sstore : List Row)
    (o o' : Oracle)
    (h₁ : new_records ≠ []) (h₂ : working_keyed new_records ≠ []) (h₃ : existing ≠ [])
    (h₄ : sdf ≠ []) (h₅ : status_working sdf ≠ []) (h₆ : sexisting ≠ []) :
    (process_timesheet_changes o new_records existing store).2.2 =
      existing.map set_keys ∧
    (process_status_updates o' sdf sexisting sstore).2.2 =
      sexisting.map set_simple_key := by
  constructor
  · by_cases h3 : to_insert_list new_records existing = [] ∧
        to_update_list new_records existing = []
    · simp [process_timesheet_changes, h₁, h₂, h₃, h3]
    · simp only [process_timesheet_changes, h₁, h₂, h₃, h3, if_false, if_neg]
      cases hde : (if to_update_list new_records existing = [] then none else o.delete_err) with
      | some e => simp [process_timesheet_changes, h₁, h₂, h₃, h3, hde]
      | none =>
        cases hin : (if ts_payload new_records existing = [] then none else o.insert_err) with
        | some e => simp [process_timesheet_changes, h₁, h₂, h₃, h3, hde, hin]
        | none => simp [process_timesheet_changes, h₁, h₂, h₃, h3, hde, hin]
  · by_cases hupd : status_updates_list sdf sexisting = []
    · cases hin : (if status_inserts_list sdf sexisting = [] then none
          else if status_payload sdf sexisting = [] then none else o'.insert_err) with
      | some e => simp [process_status_updates, h₄, h₅, h₆, hupd, hin]
      | none => simp [process_status_updates, h₄, h₅, h₆, hupd, hin]
    · cases hue : o'.update_err with
      | some e => simp [process_status_updates, h₄, h₅, h₆, hupd, hue]
      | none =>
        cases hin : (if status_inserts_list sdf sexisting = [] then none
            else if status_payload sdf sexisting = [] then none else o'.insert_err) with
        | some e => simp [process_status_updates, h₄, h₅, h₆, hupd, hue, hin]
        | none => simp [process_status_updates, h₄, h₅, h₆, hupd, hue, hin]

def c9_new : Row :=
  { date := some "2025-03-01", employee := .str "Hana", project_id := .str "P7",
    hours := .int 3 }

def c9_ex : Row :=
  { date := some "2025-03-01", employee := .str "Hana", project_id := .str "P7",
    hours := .int 2 }

def c9_snew : Row :=
  { date := some "2025-03-02", employee := .str "Ivo", project_id := .str "P8",
    status := .str "Pending" }

def c9_sex : Row :=
  { date := some "2025-03-02", employee := .str "Ivo", project_id := .str "P8",
    status := .str "Error" }

/-- Witness for C9 at concrete frames. -/
theorem claim_C9_witness :
    (process_timesheet_changes {} [c9_new] [c9_ex] [c9_ex]).2.2 =
      [c9_ex].map set_keys ∧
    (process_status_updates {} [c9_snew] [c9_sex] [c9_sex]).2.2 =
      [c9_sex].map set_simple_key :=
  claim_C9_frame [c9_new] [c9_ex] [c9_ex] [c9_snew] [c9_sex] [c9_sex] {} {}
    (by decide) (by decide) (by decide) (by decide) (by decide) (by decide)
